import Mathlib

/-!
# A shallow embedding of the dcx load orchestrator

This development models `src/dcx/core/loader.py` (class `FileLoader`):
its pre-load strategy mutations, file enumeration, header detection and
sanitization, the per-file copy parameters, the data-transaction
protocol of `load()` with rollback and audit, and the cleanup block.
SQL side effects of the warehouse are modelled relationally: a table is
a list of rows, a row an association list from column names to string
values, bulk copy an oracle from a file name to the rows it would insert
together with the `rows_loaded` figure the warehouse reports.
-/

namespace Dcx

/-- A table row: association list from column name to value. -/
abbrev Row := List (String × String)

/-- Value of column `k` in row `r` (first binding wins, as a SQL row has
unique columns). -/
def colValue (r : Row) (k : String) : Option String :=
  (r.find? (fun p => p.1 == k)).map (·.2)

/-- `WHERE k1 = v1 AND k2 = v2 AND ...` over the tag pairs, as built by
`_delete_matching_tags` / `_mark_existing_not_recent`. -/
def matchesTags (tags : List (String × String)) (r : Row) : Bool :=
  tags.all (fun kv => colValue r kv.1 == some kv.2)

/-- `FileLoader._delete_matching_tags`: if no tags, return 0 and leave the
table alone; else count the rows matching all tag equalities and, when the
count is positive, delete exactly those rows.  Returns
`(deleted count, table after)`. -/
def delete_matching_tags (tags : List (String × String)) (table : List Row) :
    Nat × List Row :=
  if tags.isEmpty then (0, table)
  else
    let count := table.countP (matchesTags tags)
    if count > 0 then (count, table.filter (fun r => ! matchesTags tags r))
    else (count, table)

/-- `FileLoader._truncate_table`: count the rows, then `TRUNCATE TABLE`
when the count is positive.  Returns `(prior row count, table after)`. -/
def truncate_table (table : List Row) : Nat × List Row :=
  let count := table.length
  if count > 0 then (count, []) else (count, table)

/-- Set column `k` of row `r` to `v` (in place, keeping other bindings). -/
def setCol (r : Row) (k v : String) : Row :=
  r.map (fun p => if p.1 == k then (p.1, v) else p)

/-- `FileLoader._mark_existing_not_recent` applied to the table:
`UPDATE ... SET is_most_recent = FALSE WHERE <tags> AND is_most_recent = TRUE`. -/
def mark_existing_not_recent (tags : List (String × String)) (table : List Row) :
    List Row :=
  if tags.isEmpty then table
  else table.map (fun r =>
    if matchesTags tags r && (colValue r "is_most_recent" == some "TRUE")
    then setCol r "is_most_recent" "FALSE" else r)

/-- The strategy dispatch of `FileLoader.load` (loader.py lines 167-171):
`deleted = 0; if strategy == "replace": deleted = _truncate_table();
elif strategy == "overwrite" and tags: deleted = _delete_matching_tags()`.
Returns `(deleted count, table after the pre-load mutation)`. -/
def strategyMutation (strategy : String) (tags : List (String × String))
    (table : List Row) : Nat × List Row :=
  if strategy == "replace" then truncate_table table
  else if strategy == "overwrite" && !tags.isEmpty then
    delete_matching_tags tags table
  else (0, table)

/-- Python `str.strip()`: drop whitespace from both ends. -/
def pyStrip (s : String) : String :=
  String.mk
    (((s.data.dropWhile Char.isWhitespace).reverse.dropWhile
        Char.isWhitespace).reverse)

/-- Python `str.upper()` on the ASCII material the sanitizer produces. -/
def pyUpper (s : String) : String :=
  String.mk (s.data.map Char.toUpper)

/-- `FileLoader._sanitize_column_name`: strip, replace every character not
in `[a-zA-Z0-9_]` with `_`, prefix `_` when the result starts with a digit,
upper-case, and fall back to `COL` when empty. -/
def sanitize_column_name (name : String) : String :=
  let sanitized := String.mk ((pyStrip name).data.map
    (fun c => if c.isAlphanum || c == '_' then c else '_'))
  let sanitized :=
    if sanitized ≠ "" && (sanitized.data.headD 'a').isDigit
    then "_" ++ sanitized else sanitized
  let upped := pyUpper sanitized
  if upped = "" then "COL" else upped

/-- Python `str.startswith` over the underlying characters. -/
def charsBeginWith : List Char → List Char → Bool
  | _, [] => true
  | [], _ :: _ => false
  | c :: cs, d :: ds => c == d && charsBeginWith cs ds

/-- Python `str.startswith`. -/
def strStartsWith (s pre : String) : Bool :=
  charsBeginWith s.data pre.data

/-- Python `str.lower()` on the ASCII file extensions the loader
compares. -/
def strToLower (s : String) : String :=
  String.mk (s.data.map Char.toLower)

/-- Split a character list on `'.'` (the behaviour of `"x".split(".")`:
always at least one group, empty groups kept). -/
def splitOnDot : List Char → List (List Char)
  | [] => [[]]
  | c :: cs =>
    match splitOnDot cs with
    | [] => [[]]
    | g :: gs => if c == '.' then [] :: g :: gs else (c :: g) :: gs

/-- `pathlib.Path.suffix` as the loader uses it: the final extension of
the name, empty for names with no dot or for pure dot-files such as
`.bashrc`. -/
def path_suffix (name : String) : String :=
  let parts := splitOnDot name.data
  match parts with
  | [] => ""
  | [_] => ""
  | _ =>
    if strStartsWith name "." && parts.length == 2 then ""
    else "." ++ String.mk (parts.getLastD [])

/-- `FileLoader._detect_format`: honour a non-`auto` hint, else decide by
extension (`.csv` → csv, `.tsv` → tsv, anything else → single-column). -/
def detect_format (file_format : String) (name : String) : String :=
  if file_format != "auto" then file_format
  else
    let ext := strToLower (path_suffix name)
    if ext == ".csv" then "csv"
    else if ext == ".tsv" then "tsv"
    else "single-column"

/-- The source argument of `load()`: a single regular file, a `.zip`
whose suffix triggers extraction (its member file names given, modelled as
base names), or a directory with its recursively found file names. Which
of the first two applies is decided by `path_suffix`, as in
`_iter_files`. -/
inductive Source where
  | file (name : String) (zipEntries : List String)
  | dir (entries : List String)
deriving DecidableEq, Repr

/-- Lexicographic code-point comparison of character lists (Python's
string ordering). -/
def charsLe : List Char → List Char → Bool
  | [], _ => true
  | _ :: _, [] => false
  | c :: cs, d :: ds =>
    if c == d then charsLe cs ds else decide (c.toNat < d.toNat)

/-- Python `<=` on strings. -/
def strLe (a b : String) : Bool := charsLe a.data b.data

/-- Stable insertion used to model Python's `sorted(...)` on path names. -/
def insertSorted (x : String) : List String → List String
  | [] => [x]
  | y :: ys => if strLe x y then x :: y :: ys else y :: insertSorted x ys

/-- Python `sorted` on a list of names. -/
def sortStrings (l : List String) : List String := l.foldr insertSorted []

/-- Whether the source is a zip archive (extension check of
`_iter_files`). -/
def sourceIsZip : Source → Bool
  | .file name _ => strToLower (path_suffix name) == ".zip"
  | .dir _ => false

/-- `FileLoader._iter_files`: a single non-zip file is returned as-is; a
zip is extracted and its files collected sorted, skipping names that start
with a dot; a directory is walked sorted, likewise skipping dot-files. -/
def iter_files (src : Source) : List String :=
  match src with
  | .file name zipEntries =>
    if strToLower (path_suffix name) == ".zip" then
      (sortStrings zipEntries).filter (fun n => ! strStartsWith n ".")
    else [name]
  | .dir entries =>
    (sortStrings entries).filter (fun n => ! strStartsWith n ".")

/-- All files present under the source, before any hidden-file filtering:
the reference set for "files discovered under the source". -/
def allFilesUnder : Source → List String
  | .file name zipEntries =>
    if strToLower (path_suffix name) == ".zip" then zipEntries else [name]
  | .dir entries => entries

/-- Count of non-hidden files under the source (names not starting with
a dot). -/
def countNonHidden (src : Source) : Nat :=
  (allFilesUnder src).countP (fun n => ! strStartsWith n ".")

/-- The expand-columns detection phase of `load()` (loader.py lines
136-149), as a function of the requested flag, the first file's detected
format and its (sanitized) header names.  Returns the effective
`(expand_columns, _csv_columns)` pair; `[]` stands for Python's
`None`/empty list, both falsy at the use site. -/
def detectColumns (expand_columns : Bool) (fmt : String)
    (headers : List String) : Bool × List String :=
  if expand_columns then
    if fmt == "csv" || fmt == "tsv" then
      (! headers.isEmpty, headers)
    else (false, [])
  else (false, [])

/-- The column-mapping mode `_load_file` selects for one file. -/
inductive CopyMode where
  /-- `single-column`: the whole line into the `data` column. -/
  | singleCol
  /-- expand mode: one destination column per detected header of the
  first file. -/
  | expanded (cols : List String)
  /-- default delimited mode: fields composed into one object keyed by
  this file's header names. -/
  | objectMode (headers : List String)
  /-- delimited but headerless: the first field stored as a simple
  value. -/
  | rawMode
deriving DecidableEq, Repr

/-- The branch structure of `_load_file` (loader.py lines 431-491)
choosing the column mapping: `single-column` first, then
`expand_columns and _csv_columns`, then the default delimited branch
which re-reads this file's header. -/
def copyMode (expand_columns : Bool) (csvColumns : List String)
    (fmt : String) (fileHeaders : List String) : CopyMode :=
  if fmt == "single-column" then .singleCol
  else if expand_columns && ! csvColumns.isEmpty then .expanded csvColumns
  else if ! fileHeaders.isEmpty then .objectMode fileHeaders
  else .rawMode

/-- The `SKIP_HEADER` figure `_load_file` writes into the `COPY INTO`
file format, per branch: the requested count in single-column mode;
`max(1, skip_header)` in expand mode; in the default delimited branch
`max(1, skip_header)` when this file's header yields names, else the
requested count. -/
def skipHeaderCount (skip_header : Nat) (expand_columns : Bool)
    (csvColumns : List String) (fmt : String)
    (fileHeaders : List String) : Nat :=
  if fmt == "single-column" then skip_header
  else if expand_columns && ! csvColumns.isEmpty then max 1 skip_header
  else if ! fileHeaders.isEmpty then max 1 skip_header
  else skip_header

/-- The `FileLoader` constructor arguments relevant to `load()`, plus the
connection's schema name (`connection.get("schema")`, `None` modelled as
`none`). -/
structure LoadParams where
  dest_table : String
  tags : List (String × String)
  strategy : String
  file_format : String
  create_table : Bool
  create_schema : Bool
  grants : List String
  track_most_recent : Bool
  skip_header : Nat
  expand_columns : Bool
  audit : Bool
  schema : Option String
deriving DecidableEq, Repr

/-- One row of `_dcx_load_history` as written by `_log_audit` (columns
with warehouse-side defaults omitted). -/
structure AuditRecord where
  load_id : String
  table_name : String
  tags : List (String × String)
  strategy : String
  row_count : Nat
  file_count : Nat
  deleted_count : Nat
  status : String
  error_message : Option String
deriving DecidableEq, Repr

/-- Durable warehouse state: whether the connection's schema exists, the
committed destination-table rows, the audit history, and the trace of
files staged with `PUT` (appended even when the data transaction later
rolls back — a temporary stage is session-scoped, not transactional). -/
structure WarehouseState where
  schemaExists : Bool
  committed : List Row
  auditLog : List AuditRecord
  staged : List String
deriving DecidableEq, Repr

/-- Loader-process state: whether a connection is open and whether the
scratch extraction directory exists. -/
structure LoaderState where
  conn : Bool
  tempDir : Bool
  wh : WarehouseState
deriving DecidableEq, Repr

deriving instance DecidableEq for Except

/-- The distinct failure kinds `load()` can raise: `ValueError` for an
empty source, `SchemaNotFoundError` carrying the schema name, and any
error propagated out of a file's bulk copy (carrying its message). -/
inductive LoadErr where
  | noFiles
  | schemaNotFound (schema : String)
  | copyError (msg : String)
deriving DecidableEq, Repr

/-- The dictionary a successful `load()` returns (loader.py lines
226-232). -/
structure LoadResult where
  rows : Nat
  files : Nat
  deleted : Option Nat
  grants : Option (List String)
  load_id : Option String
deriving DecidableEq, Repr

/-- `FileLoader._get_conn`: on first use, connect (the connection flag is
set before any schema statement runs, so cleanup later closes it), then if
a schema is configured, `CREATE SCHEMA IF NOT EXISTS` when `create_schema`
is set, and `USE SCHEMA` — which raises `SchemaNotFoundError(schema)` when
the schema does not exist. -/
def get_conn (p : LoadParams) (s : LoaderState) :
    Except LoadErr Unit × LoaderState :=
  if s.conn then (Except.ok (), s)
  else
    let s := { s with conn := true }
    match p.schema with
    | none => (Except.ok (), s)
    | some sch =>
      let s :=
        if p.create_schema then { s with wh.schemaExists := true } else s
      if s.wh.schemaExists then (Except.ok (), s)
      else (Except.error (LoadErr.schemaNotFound sch), s)

/-- The outcome of one file's `PUT` + `COPY INTO`, supplied as an oracle
from the file name, the column-mapping mode and the `SKIP_HEADER` figure:
either the error the warehouse raises, or the rows the copy inserts
together with the `rows_loaded` figure reported in the copy result
(`result[3]`). -/
abbrev CopyOracle := String → CopyMode → Nat → Except String (List Row × Nat)

/-- `FileLoader._load_file` for one file: detect its format, choose the
column mapping and the skip count per the branch structure, and perform
the staged copy through the warehouse oracle. -/
def load_file (p : LoadParams) (expand : Bool) (csvCols : List String)
    (headersOf : String → List String) (oracle : CopyOracle)
    (f : String) : Except String (List Row × Nat) :=
  let fmt := detect_format p.file_format f
  oracle f (copyMode expand csvCols fmt (headersOf f))
    (skipHeaderCount p.skip_header expand csvCols fmt (headersOf f))

/-- The per-file loop of `load()`: each file is staged and bulk-copied in
order; the first copy error aborts the loop.  Returns the loop outcome
(total of the reported per-file row counts and the table after all
inserts) together with the list of files staged before the outcome. -/
def copyLoop (g : String → Except String (List Row × Nat)) :
    List String → List Row → Except String (Nat × List Row) × List String
  | [], cur => (Except.ok (0, cur), [])
  | f :: fs, cur =>
    match g f with
    | Except.error m => (Except.error m, [f])
    | Except.ok (newRows, reported) =>
      let rest := copyLoop g fs (cur ++ newRows)
      (match rest.1 with
       | Except.error m => Except.error m
       | Except.ok (total, fin) => Except.ok (reported + total, fin),
       f :: rest.2)

/-- The in-transaction prologue of `load()`: the strategy's pre-load
mutation followed by the most-recent flip (`track_most_recent` with
tags).  Returns `(deleted count, table the copy loop starts from)`. -/
def txStart (p : LoadParams) (table : List Row) : Nat × List Row :=
  let mut1 := strategyMutation p.strategy p.tags table
  (mut1.1,
   if p.track_most_recent && ! p.tags.isEmpty
   then mark_existing_not_recent p.tags mut1.2 else mut1.2)

/-- The failed-load audit row: `_log_audit(load_id, file_count=len(files),
status="failed", error_message=str(e)[:1000])` with zero row and deleted
counts. -/
def failedAudit (p : LoadParams) (load_id : String) (file_count : Nat)
    (msg : String) : AuditRecord :=
  { load_id := load_id, table_name := p.dest_table, tags := p.tags,
    strategy := p.strategy, row_count := 0, file_count := file_count,
    deleted_count := 0, status := "failed",
    error_message := some (msg.take 1000) }

/-- The success audit row written after commit. -/
def successAudit (p : LoadParams) (load_id : String) (row_count file_count
    deleted_count : Nat) : AuditRecord :=
  { load_id := load_id, table_name := p.dest_table, tags := p.tags,
    strategy := p.strategy, row_count := row_count,
    file_count := file_count, deleted_count := deleted_count,
    status := "success", error_message := none }

/-- The result dictionary of a successful `load()`, with Python's
truthiness: `deleted if deleted else None`, `grants if grants else None`,
`load_id if audit else None`. -/
def buildResult (p : LoadParams) (load_id : String) (total_rows : Nat)
    (file_count : Nat) (deleted : Nat) : LoadResult :=
  { rows := total_rows, files := file_count,
    deleted := if deleted ≠ 0 then some deleted else none,
    grants := if ! p.grants.isEmpty then some p.grants else none,
    load_id := if p.audit then some load_id else none }

/-- The `BEGIN TRANSACTION ... COMMIT / ROLLBACK` block of `load()`
(loader.py lines 163-224) followed by grants and the audit record: the
strategy mutation, the most-recent flip and every file's copy run against
the in-transaction view; on success the view is committed and a success
audit row appended; on any error the view is discarded (rollback — the
committed table is untouched), a failed audit row is appended when
auditing, and the error re-raised. -/
def runTx (p : LoadParams) (load_id : String) (expand : Bool)
    (csvCols : List String) (headersOf : String → List String)
    (oracle : CopyOracle) (files : List String) (s : LoaderState) :
    Except LoadErr LoadResult × LoaderState :=
  let start := txStart p s.wh.committed
  let loop := copyLoop (load_file p expand csvCols headersOf oracle) files start.2
  let s1 := { s with wh.staged := s.wh.staged ++ loop.2 }
  match loop.1 with
  | Except.error m =>
    let s2 :=
      if p.audit then
        { s1 with wh.auditLog :=
            s1.wh.auditLog ++ [failedAudit p load_id files.length m] }
      else s1
    (Except.error (LoadErr.copyError m), s2)
  | Except.ok (total, fin) =>
    let s2 := { s1 with wh.committed := fin }
    let s3 :=
      if p.audit then
        { s2 with wh.auditLog :=
            s2.wh.auditLog ++ [successAudit p load_id total files.length start.1] }
      else s2
    (Except.ok (buildResult p load_id total files.length start.1), s3)

/-- The expand-columns detection of `load()` against the first enumerated
file: its detected format and header names feed `detectColumns`. -/
def effectiveDetect (p : LoadParams) (headersOf : String → List String)
    (files : List String) : Bool × List String :=
  detectColumns p.expand_columns
    (detect_format p.file_format (files.headD ""))
    (headersOf (files.headD ""))

/-- Whether `_get_conn` succeeds on state `s`: an already-open connection
is reused unchecked; otherwise the schema check passes when no schema is
configured, when schema creation is requested, or when the schema already
exists. -/
def connOk (p : LoadParams) (s : LoaderState) : Bool :=
  s.conn || p.schema.isNone || p.create_schema || s.wh.schemaExists

/-- The scratch-directory effect of `_iter_files`: extracting a zip
source creates the temporary extraction directory. -/
def zipAdjust (src : Source) (s : LoaderState) : LoaderState :=
  if sourceIsZip src then { s with tempDir := true } else s

/-- The body of `load()` inside the `try`: enumerate files (creating the
scratch directory when the source is a zip), fail with `ValueError` when
none are found, run the expand-columns detection against the first file,
establish the connection (the first `_execute` — table/audit-table DDL or
the `CREATE TEMPORARY STAGE` — triggers `_get_conn`, all before the data
transaction), then run the transaction block.  `headersOf` supplies each
file's sanitized header names, as `_get_csv_headers` would read them. -/
def loadBody (p : LoadParams) (load_id : String) (oracle : CopyOracle)
    (headersOf : String → List String) (src : Source) (s : LoaderState) :
    Except LoadErr LoadResult × LoaderState :=
  let s := zipAdjust src s
  let files := iter_files src
  if files.isEmpty then (Except.error LoadErr.noFiles, s)
  else
    let ec := effectiveDetect p headersOf files
    let gc := get_conn p s
    match gc.1 with
    | Except.error e => (Except.error e, gc.2)
    | Except.ok _ => runTx p load_id ec.1 ec.2 headersOf oracle files gc.2

/-- `FileLoader.load`: the try-body wrapped in the `finally` block that
removes the scratch directory and closes and resets the connection on
every exit path. -/
def load (p : LoadParams) (load_id : String) (oracle : CopyOracle)
    (headersOf : String → List String) (src : Source) (s : LoaderState) :
    Except LoadErr LoadResult × LoaderState :=
  let body := loadBody p load_id oracle headersOf src s
  (body.1, { body.2 with conn := false, tempDir := false })

/-- The character-replacement pass of the sanitizer as the spec words it
("replaces every character that is not alphanumeric or underscore with an
underscore"), written by explicit recursion for comparison against the
source's regex-substitution translation. -/
def specReplaceChars : List Char → List Char
  | [] => []
  | c :: cs =>
    (if c.isAlphanum || c == '_' then c else '_') :: specReplaceChars cs

/-- The column-name sanitizer as the spec describes it: strip surrounding
whitespace, replace each character that is not alphanumeric or underscore
with an underscore, prefix an underscore when the result starts with a
digit, upper-case, and fall back to a fixed identifier when empty. -/
def specSanitizeColumnName (name : String) : String :=
  let replaced := String.mk (specReplaceChars (pyStrip name).data)
  let prefixed :=
    match replaced.data with
    | [] => replaced
    | c :: _ => if c.isDigit then "_" ++ replaced else replaced
  let upped := pyUpper prefixed
  if upped = "" then "COL" else upped

/-! ### Concrete fixtures used by witnesses -/

/-- A baseline parameter set: overwrite strategy, one tag, no grants, no
auditing, schema configured. -/
def exampleParams : LoadParams where
  dest_table := "ucop_file_loads"
  tags := [("term", "2258")]
  strategy := "overwrite"
  file_format := "auto"
  create_table := true
  create_schema := false
  grants := []
  track_most_recent := false
  skip_header := 0
  expand_columns := false
  audit := false
  schema := some "RAW"

/-- A warehouse with the schema present, two committed rows (one matching
the example tag, one not), empty audit history, nothing staged. -/
def exampleWarehouse : WarehouseState where
  schemaExists := true
  committed := [[("term", "2258"), ("data", "old")], [("term", "2199"), ("data", "keep")]]
  auditLog := []
  staged := []

/-- Fresh loader state over `exampleWarehouse`. -/
def exampleState : LoaderState where
  conn := false
  tempDir := false
  wh := exampleWarehouse

/-- A copy oracle that loads every file cleanly: each file contributes one
row and reports 3 rows loaded. -/
def okOracle : CopyOracle :=
  fun f _ _ => Except.ok ([[("_source_file", f)]], 3)

/-- A copy oracle that fails on `b.csv` with message `boom` and loads any
other file cleanly (2 rows each). -/
def failSecondOracle : CopyOracle :=
  fun f _ _ =>
    if f == "b.csv" then Except.error "boom"
    else Except.ok ([[("_source_file", f)]], 2)

/-- Every file presents the single sanitized header column `A`. -/
def exampleHeaders : String → List String := fun _ => ["A"]

/-- Loader state over an empty warehouse whose schema is absent. -/
def noSchemaState : LoaderState where
  conn := false
  tempDir := false
  wh := { schemaExists := false, committed := [], auditLog := [], staged := [] }

/-- The rows `okOracle` inserts for a file. -/
def exampleRowsF : String → List Row := fun f => [[("_source_file", f)]]

/-- The per-file `rows_loaded` figure `okOracle` reports. -/
def exampleRepF : String → Nat := fun _ => 3

/-- `exampleParams` with auditing enabled. -/
def auditParams : LoadParams := { exampleParams with audit := true }

/-- `exampleParams` with expand-columns requested. -/
def expandParams : LoadParams := { exampleParams with expand_columns := true }

/-! ## Helper lemmas -/

theorem zipAdjust_conn (src : Source) (s : LoaderState) :
    (zipAdjust src s).conn = s.conn := by
  unfold zipAdjust; split <;> rfl

theorem zipAdjust_wh (src : Source) (s : LoaderState) :
    (zipAdjust src s).wh = s.wh := by
  unfold zipAdjust; split <;> rfl

theorem connOk_zipAdjust (p : LoadParams) (src : Source) (s : LoaderState) :
    connOk p (zipAdjust src s) = connOk p s := by
  unfold connOk
  rw [zipAdjust_conn, zipAdjust_wh]

theorem get_conn_ok_iff (p : LoadParams) (s : LoaderState) :
    (get_conn p s).1 = Except.ok () ↔ connOk p s = true := by
  unfold get_conn connOk
  by_cases hc : s.conn
  · simp [hc]
  · simp only [hc, Bool.false_or, if_false]
    cases hs : p.schema with
    | none => simp
    | some sch =>
      by_cases hcr : p.create_schema
      · simp [hcr]
      · by_cases he : s.wh.schemaExists <;> simp [hcr, he]

theorem get_conn_wh_fields (p : LoadParams) (s : LoaderState) :
    ((get_conn p s).2).wh.committed = s.wh.committed
    ∧ ((get_conn p s).2).wh.auditLog = s.wh.auditLog
    ∧ ((get_conn p s).2).wh.staged = s.wh.staged := by
  unfold get_conn
  by_cases hc : s.conn
  · simp [hc]
  · simp only [hc, if_false]
    cases hs : p.schema with
    | none => simp
    | some sch =>
      by_cases hcr : p.create_schema
      · by_cases he : s.wh.schemaExists <;> simp [hcr, he]
      · by_cases he : s.wh.schemaExists <;> simp [hcr, he]

theorem copyLoop_ok_of_all (g : String → Except String (List Row × Nat))
    (rowsF : String → List Row) (repF : String → Nat) :
    ∀ (files : List String) (cur : List Row),
      (∀ f ∈ files, g f = Except.ok (rowsF f, repF f)) →
      copyLoop g files cur
        = (Except.ok ((files.map repF).sum, cur ++ (files.map rowsF).flatten),
           files) := by
  intro files
  induction files with
  | nil => intro cur _; simp [copyLoop]
  | cons f fs ih =>
    intro cur hall
    have hf : g f = Except.ok (rowsF f, repF f) := hall f (by simp)
    have hrest := ih (cur ++ rowsF f) (fun x hx => hall x (by simp [hx]))
    simp [copyLoop, hf, hrest]

theorem countP_insertSorted (q : String → Bool) (x : String) :
    ∀ l : List String, (insertSorted x l).countP q = (x :: l).countP q := by
  intro l
  induction l with
  | nil => rfl
  | cons y ys ih =>
    unfold insertSorted
    split
    · rfl
    · simp only [List.countP_cons, ih]
      omega

theorem countP_sortStrings (q : String → Bool) (l : List String) :
    (sortStrings l).countP q = l.countP q := by
  induction l with
  | nil => rfl
  | cons x xs ih =>
    show (insertSorted x (sortStrings xs)).countP q = _
    rw [countP_insertSorted, List.countP_cons, List.countP_cons, ih]

theorem length_filter_sortStrings (q : String → Bool) (l : List String) :
    ((sortStrings l).filter q).length = l.countP q := by
  rw [← List.countP_eq_length_filter, countP_sortStrings]

theorem specReplaceChars_eq_map (l : List Char) :
    specReplaceChars l
      = l.map (fun c => if c.isAlphanum || c == '_' then c else '_') := by
  induction l with
  | nil => rfl
  | cons c cs ih => simp [specReplaceChars, ih]

/-! ## Claims -/

/-- C1, counterexample: on a one-row table, strategy `truncate` leaves
the row in place and reports 0 deleted, while `replace` truncates and
reports 1 — the pre-load mutations of the two strategies differ, so they
are not synonyms in `FileLoader.load`. -/
theorem c1_truncate_counterexample :
    strategyMutation "truncate" [("extract_type", "CENSUS")]
        [[("extract_type", "CENSUS")]]
      = (0, [[("extract_type", "CENSUS")]])
    ∧ strategyMutation "replace" [("extract_type", "CENSUS")]
        [[("extract_type", "CENSUS")]]
      = (1, [])
    ∧ strategyMutation "truncate" [("extract_type", "CENSUS")]
        [[("extract_type", "CENSUS")]]
      ≠ strategyMutation "replace" [("extract_type", "CENSUS")]
        [[("extract_type", "CENSUS")]] := by
  decide

/-- C1 (amended): for every tag set and table, strategy `replace` removes
all existing rows and reports the prior row count as the deleted count,
while the strategy string `truncate` matches neither branch of the
dispatch in `load()` and performs no pre-load mutation at all (deleted
count 0, table unchanged — it behaves like `append`). -/
theorem c1_replace_truncates_truncate_is_noop
    (tags : List (String × String)) (table : List Row) :
    strategyMutation "replace" tags table = (table.length, [])
    ∧ strategyMutation "truncate" tags table = (0, table) := by
  constructor
  · cases table with
    | nil => rfl
    | cons r rest => simp [strategyMutation, truncate_table]
  · rfl

/-- C2: with a non-empty tag set, the `overwrite` pre-load mutation
deletes exactly the rows whose tag columns all equal the request's tag
values (every tag key compared by equality, conditions conjoined) and no
other rows, and reports the count of the matching rows; with an empty tag
set no mutation is performed — the strategy step leaves the table
unchanged with deleted count 0, exactly as `append` does. -/
theorem c2_overwrite_tag_scoped_delete
    (tags : List (String × String)) (table : List Row) :
    (tags ≠ [] →
      (delete_matching_tags tags table).1 = table.countP (matchesTags tags)
      ∧ (delete_matching_tags tags table).2
          = table.filter (fun r => ! matchesTags tags r)
      ∧ (∀ r ∈ (delete_matching_tags tags table).2,
          matchesTags tags r = false)
      ∧ (∀ r ∈ table, matchesTags tags r = false →
          r ∈ (delete_matching_tags tags table).2)
      ∧ strategyMutation "overwrite" tags table = delete_matching_tags tags table)
    ∧ strategyMutation "overwrite" [] table = (0, table)
    ∧ strategyMutation "overwrite" [] table
        = strategyMutation "append" [] table := by
  refine ⟨fun htags => ?_, rfl, rfl⟩
  have hne : tags.isEmpty = false := by
    simpa [List.isEmpty_iff] using htags
  have hmut : strategyMutation "overwrite" tags table
      = delete_matching_tags tags table := by
    simp [strategyMutation, hne]
  by_cases hc : table.countP (matchesTags tags) > 0
  · have h2 : (delete_matching_tags tags table).2
        = table.filter (fun r => ! matchesTags tags r) := by
      simp [delete_matching_tags, hne, hc]
    refine ⟨by simp [delete_matching_tags, hne, hc], h2, ?_, ?_, hmut⟩
    · intro r hr
      rw [h2] at hr
      have := (List.mem_filter.mp hr).2
      simpa using this
    · intro r hr hm
      rw [h2]
      exact List.mem_filter.mpr ⟨hr, by simp [hm]⟩
  · have hzero : table.countP (matchesTags tags) = 0 := Nat.eq_zero_of_not_pos hc
    have hall : ∀ r ∈ table, matchesTags tags r = false := by
      intro r hr
      have := List.countP_eq_zero.mp hzero r hr
      simpa using this
    have h2 : (delete_matching_tags tags table).2 = table := by
      simp [delete_matching_tags, hne, hc]
    have hfil : table.filter (fun r => ! matchesTags tags r) = table := by
      apply List.filter_eq_self.mpr
      intro r hr
      simp [hall r hr]
    refine ⟨by simp [delete_matching_tags, hne, hc, hzero], by rw [h2, hfil], ?_, ?_, hmut⟩
    · intro r hr
      rw [h2] at hr
      exact hall r hr
    · intro r hr _
      rw [h2]
      exact hr

/-- C2 witness: with tag `term=2258` on a two-row table, exactly the
matching row is deleted (count 1) and the non-matching row survives. -/
theorem c2_overwrite_witness :
    (delete_matching_tags [("term", "2258")]
        [[("term", "2258"), ("data", "old")], [("term", "2199"), ("data", "keep")]]).1 = 1
    ∧ (delete_matching_tags [("term", "2258")]
        [[("term", "2258"), ("data", "old")], [("term", "2199"), ("data", "keep")]]).2
      = [[("term", "2199"), ("data", "keep")]] := by
  have h := (c2_overwrite_tag_scoped_delete [("term", "2258")]
      [[("term", "2258"), ("data", "old")], [("term", "2199"), ("data", "keep")]]).1
    (by decide)
  refine ⟨?_, ?_⟩
  · rw [h.1]; decide
  · rw [h.2.1]; decide

/-- C6: the column-name sanitizer agrees everywhere with the
spec-described pipeline (strip, replace non-alphanumeric-or-underscore
with underscore, underscore-prefix a leading digit, upper-case, fixed
fallback for empty) — it is a pure deterministic function of the input —
and in particular maps `First Name` to `FIRST_NAME` and `Id#` to `ID_`. -/
theorem c6_sanitize_column_name (name : String) :
    sanitize_column_name name = specSanitizeColumnName name
    ∧ sanitize_column_name "First Name" = "FIRST_NAME"
    ∧ sanitize_column_name "Id#" = "ID_" := by
  refine ⟨?_, by decide, by decide⟩
  unfold sanitize_column_name specSanitizeColumnName
  rw [specReplaceChars_eq_map]
  cases hd : (pyStrip name).data.map
      (fun c => if c.isAlphanum || c == '_' then c else '_') with
  | nil => simp
  | cons c rest =>
    have hne : String.mk (c :: rest) ≠ "" := by
      intro h
      have := congrArg String.data h
      simp at this
    simp [hne]

/-- C9: for a file whose detected format is `csv` or `tsv`, the
`SKIP_HEADER` figure of the bulk copy is `max 1 skip_header` — at least
one line is skipped even when 0 was requested — both in expand mode
(`expand_columns` with detected first-file columns) and in the default
delimited mode when this file's header yields names; exactly the
requested count is used only in the headerless delimited case, and in
`single-column` format. -/
theorem c9_skip_header_floor (skip : Nat) (expand : Bool)
    (cols fileHeaders : List String) (fmt : String)
    (hfmt : fmt = "csv" ∨ fmt = "tsv") :
    ((expand && ! cols.isEmpty) = true →
      skipHeaderCount skip expand cols fmt fileHeaders = max 1 skip
      ∧ 1 ≤ skipHeaderCount skip expand cols fmt fileHeaders)
    ∧ ((expand && ! cols.isEmpty) = false → fileHeaders ≠ [] →
      skipHeaderCount skip expand cols fmt fileHeaders = max 1 skip
      ∧ 1 ≤ skipHeaderCount skip expand cols fmt fileHeaders)
    ∧ ((expand && ! cols.isEmpty) = false → fileHeaders = [] →
      skipHeaderCount skip expand cols fmt fileHeaders = skip)
    ∧ (∀ s2 e2 c2 h2, skipHeaderCount s2 e2 c2 "single-column" h2 = s2) := by
  have hsc : (fmt == "single-column") = false := by
    rcases hfmt with h | h <;> subst h <;> rfl
  refine ⟨?_, ?_, ?_, fun s2 e2 c2 h2 => rfl⟩
  · intro hmode
    refine ⟨by simp [skipHeaderCount, hsc, hmode], ?_⟩
    simp [skipHeaderCount, hsc, hmode]
  · intro hmode hh
    have hhe : fileHeaders.isEmpty = false := by
      simpa [List.isEmpty_iff] using hh
    refine ⟨by simp [skipHeaderCount, hsc, hmode, hhe], ?_⟩
    simp [skipHeaderCount, hsc, hmode, hhe]
  · intro hmode hh
    subst hh
    simp [skipHeaderCount, hsc, hmode]

/-- C9 witness: with a requested skip of 0 on a csv file, expand mode and
default-with-headers mode both skip 1 line, while the headerless
delimited case and single-column format skip exactly the requested
count. -/
theorem c9_skip_header_witness :
    skipHeaderCount 0 true ["A"] "csv" [] = 1
    ∧ skipHeaderCount 0 false [] "csv" ["A"] = 1
    ∧ skipHeaderCount 5 false [] "csv" [] = 5
    ∧ skipHeaderCount 0 true ["A"] "single-column" [] = 0 := by
  have h := c9_skip_header_floor 0 true ["A"] [] "csv" (Or.inl rfl)
  have h2 := c9_skip_header_floor 0 false ([] : List String) ["A"] "csv" (Or.inl rfl)
  have h3 := c9_skip_header_floor 5 false ([] : List String) [] "csv" (Or.inl rfl)
  refine ⟨?_, ?_, ?_, ?_⟩
  · rw [(h.1 (by decide)).1]; decide
  · rw [(h2.2.1 (by decide) (by decide)).1]; decide
  · exact h3.2.2.1 (by decide) rfl
  · exact h.2.2.2 0 true ["A"] []

/-- Any successful `load()` returns exactly a `buildResult` for the
enumerated file count. -/
theorem load_ok_shape (p : LoadParams) (lid : String) (oracle : CopyOracle)
    (headersOf : String → List String) (src : Source) (s : LoaderState)
    (r : LoadResult)
    (h : (load p lid oracle headersOf src s).1 = Except.ok r) :
    ∃ total deleted,
      r = buildResult p lid total (iter_files src).length deleted := by
  have h1 : (loadBody p lid oracle headersOf src s).1 = Except.ok r := h
  simp only [loadBody] at h1
  by_cases he : (iter_files src).isEmpty
  · simp [he] at h1
  · simp only [he, if_false, Bool.false_eq_true] at h1
    rcases hg : (get_conn p (zipAdjust src s)).1 with e | u
    · rw [hg] at h1; simp at h1
    · rw [hg] at h1
      simp only [runTx] at h1
      rcases hl : (copyLoop
          (load_file p (effectiveDetect p headersOf (iter_files src)).1
            (effectiveDetect p headersOf (iter_files src)).2 headersOf oracle)
          (iter_files src)
          (txStart p ((get_conn p (zipAdjust src s)).2).wh.committed).2).1
        with m | ⟨total, fin⟩
      · rw [hl] at h1; simp at h1
      · rw [hl] at h1
        simp only [Except.ok.injEq] at h1
        exact ⟨total,
          (txStart p ((get_conn p (zipAdjust src s)).2).wh.committed).1,
          h1.symm⟩

/-- C8: on every exit path of `load()` — successful return, strategy or
copy failure, missing schema, or empty source — the final loader state
has the warehouse connection closed and reset and the scratch extraction
directory gone: neither resource outlives the call. -/
theorem c8_cleanup_every_exit (p : LoadParams) (lid : String)
    (oracle : CopyOracle) (headersOf : String → List String) (src : Source)
    (s : LoaderState) :
    ((load p lid oracle headersOf src s).2).conn = false
    ∧ ((load p lid oracle headersOf src s).2).tempDir = false := by
  unfold load
  exact ⟨rfl, rfl⟩

/-- C10: in the dictionary a successful `load()` returns, `deleted` is
never `some 0` (zero deletions are reported as `None`), `grants` is
`None` exactly when no grant roles were requested, and `load_id` is
non-`None` exactly when auditing was enabled. -/
theorem c10_result_optional_fields (p : LoadParams) (lid : String)
    (oracle : CopyOracle) (headersOf : String → List String) (src : Source)
    (s : LoaderState) (r : LoadResult)
    (h : (load p lid oracle headersOf src s).1 = Except.ok r) :
    r.deleted ≠ some 0
    ∧ (r.grants = none ↔ p.grants = [])
    ∧ (r.load_id ≠ none ↔ p.audit = true) := by
  obtain ⟨total, d, rfl⟩ := load_ok_shape p lid oracle headersOf src s r h
  refine ⟨?_, ?_, ?_⟩
  · by_cases hd : d = 0
    · simp [buildResult, hd]
    · simp [buildResult, hd]
  · by_cases hg : p.grants = [] <;>
      simp [buildResult, hg, List.isEmpty_iff]
  · by_cases ha : p.audit <;> simp [buildResult, ha]

/-- C10 witness: a concrete successful load with the overwrite strategy
deleting one row, no grants and auditing off yields `deleted = some 1`
(never `some 0`), `grants = none` and `load_id = none`. -/
theorem c10_result_optional_fields_witness :
    (LoadResult.mk 6 2 (some 1) none none).deleted ≠ some 0
    ∧ ((LoadResult.mk 6 2 (some 1) none none).grants = none
        ↔ exampleParams.grants = [])
    ∧ ((LoadResult.mk 6 2 (some 1) none none).load_id ≠ none
        ↔ exampleParams.audit = true) :=
  c10_result_optional_fields exampleParams "lid" okOracle exampleHeaders
    (Source.dir ["a.csv", "b.csv"]) exampleState
    (LoadResult.mk 6 2 (some 1) none none) (by decide)

/-- C4: when the connection's schema is absent and `create_schema` is
off, `load()` fails with the distinct `SchemaNotFoundError` carrying the
schema name; the failure happens before any file is staged (and before
any row changes), and retrying the connection step with schema creation
enabled passes the schema check. -/
theorem c4_schema_not_found (p : LoadParams) (lid : String)
    (oracle : CopyOracle) (headersOf : String → List String) (src : Source)
    (s : LoaderState) (sch : String)
    (hschema : p.schema = some sch)
    (hcreate : p.create_schema = false)
    (hconn0 : s.conn = false)
    (hexists : s.wh.schemaExists = false)
    (hfiles : (iter_files src).isEmpty = false) :
    (load p lid oracle headersOf src s).1
      = Except.error (LoadErr.schemaNotFound sch)
    ∧ ((load p lid oracle headersOf src s).2).wh.staged = s.wh.staged
    ∧ ((load p lid oracle headersOf src s).2).wh.committed = s.wh.committed
    ∧ (get_conn { p with create_schema := true } s).1 = Except.ok () := by
  have hzc := zipAdjust_conn src s
  have hzw := zipAdjust_wh src s
  have hgc : get_conn p (zipAdjust src s)
      = (Except.error (LoadErr.schemaNotFound sch),
         { zipAdjust src s with conn := true }) := by
    unfold get_conn
    rw [hzc, hconn0, hschema, hzw]
    simp [hcreate, hexists, hzw]
  refine ⟨?_, ?_, ?_, ?_⟩
  · show (loadBody p lid oracle headersOf src s).1
      = Except.error (LoadErr.schemaNotFound sch)
    simp [loadBody, hfiles, hgc]
  · show ((loadBody p lid oracle headersOf src s).2).wh.staged = s.wh.staged
    simp [loadBody, hfiles, hgc, hzw]
  · show ((loadBody p lid oracle headersOf src s).2).wh.committed
      = s.wh.committed
    simp [loadBody, hfiles, hgc, hzw]
  · unfold get_conn
    rw [hconn0]
    simp [hschema]

/-- C4 witness: with schema `RAW` absent and `create_schema = False`, a
concrete load fails with `SchemaNotFoundError("RAW")`, stages nothing,
and the retried connection step with schema creation on succeeds. -/
theorem c4_schema_not_found_witness :
    (load exampleParams "lid" okOracle exampleHeaders
        (Source.dir ["a.csv"]) noSchemaState).1
      = Except.error (LoadErr.schemaNotFound "RAW")
    ∧ ((load exampleParams "lid" okOracle exampleHeaders
        (Source.dir ["a.csv"]) noSchemaState).2).wh.staged
      = noSchemaState.wh.staged
    ∧ (get_conn { exampleParams with create_schema := true }
        noSchemaState).1 = Except.ok () := by
  have h := c4_schema_not_found exampleParams "lid" okOracle exampleHeaders
    (Source.dir ["a.csv"]) noSchemaState "RAW" rfl rfl rfl rfl (by decide)
  exact ⟨h.1, h.2.1, h.2.2.2⟩

/-- C3: if any file's bulk copy inside the data transaction fails, the
whole transaction is rolled back — the committed table is exactly what it
was before the load, so no rows copied in this attempt are retained,
including files that copied cleanly before the failing one — then, when
auditing is enabled, exactly one `failed` audit record with the truncated
error message is appended (none when auditing is off), and the original
copy error is re-raised to the caller. -/
theorem c3_rollback_audit_reraise (p : LoadParams) (lid : String)
    (oracle : CopyOracle) (headersOf : String → List String) (src : Source)
    (s : LoaderState) (m : String)
    (hconn : connOk p s = true)
    (hfail : (copyLoop
        (load_file p (effectiveDetect p headersOf (iter_files src)).1
          (effectiveDetect p headersOf (iter_files src)).2 headersOf oracle)
        (iter_files src) (txStart p s.wh.committed).2).1
      = Except.error m) :
    (load p lid oracle headersOf src s).1
      = Except.error (LoadErr.copyError m)
    ∧ ((load p lid oracle headersOf src s).2).wh.committed = s.wh.committed
    ∧ (p.audit = true →
        ((load p lid oracle headersOf src s).2).wh.auditLog
          = s.wh.auditLog ++ [failedAudit p lid (iter_files src).length m])
    ∧ (p.audit = false →
        ((load p lid oracle headersOf src s).2).wh.auditLog
          = s.wh.auditLog) := by
  have hne : (iter_files src).isEmpty = false := by
    cases hfe : (iter_files src).isEmpty
    · rfl
    · exfalso
      have hnil : iter_files src = [] := List.isEmpty_iff.mp hfe
      rw [hnil] at hfail
      simp [copyLoop] at hfail
  have hgc_ok : (get_conn p (zipAdjust src s)).1 = Except.ok () := by
    rw [get_conn_ok_iff, connOk_zipAdjust]
    exact hconn
  have hcom : ((get_conn p (zipAdjust src s)).2).wh.committed
      = s.wh.committed := by
    rw [(get_conn_wh_fields p (zipAdjust src s)).1, zipAdjust_wh]
  have hlog : ((get_conn p (zipAdjust src s)).2).wh.auditLog
      = s.wh.auditLog := by
    rw [(get_conn_wh_fields p (zipAdjust src s)).2.1, zipAdjust_wh]
  have hbody : loadBody p lid oracle headersOf src s
      = runTx p lid (effectiveDetect p headersOf (iter_files src)).1
          (effectiveDetect p headersOf (iter_files src)).2 headersOf oracle
          (iter_files src) ((get_conn p (zipAdjust src s)).2) := by
    simp only [loadBody, hne, Bool.false_eq_true, if_false]
    rw [hgc_ok]
  refine ⟨?_, ?_, ?_, ?_⟩
  · show (loadBody p lid oracle headersOf src s).1
      = Except.error (LoadErr.copyError m)
    rw [hbody]
    simp only [runTx]
    rw [hcom, hfail]
  · show ((loadBody p lid oracle headersOf src s).2).wh.committed
      = s.wh.committed
    rw [hbody]
    simp only [runTx]
    rw [hcom, hfail]
    by_cases ha : p.audit <;> simp [ha, hcom]
  · intro ha
    show ((loadBody p lid oracle headersOf src s).2).wh.auditLog
      = s.wh.auditLog ++ [failedAudit p lid (iter_files src).length m]
    rw [hbody]
    simp only [runTx]
    rw [hcom, hfail]
    simp [ha, hlog]
  · intro ha
    show ((loadBody p lid oracle headersOf src s).2).wh.auditLog
      = s.wh.auditLog
    rw [hbody]
    simp only [runTx]
    rw [hcom, hfail]
    simp [ha, hlog]

/-- C3 witness: two files, the second file's copy fails with `boom`
after the first copied cleanly — the committed table is unchanged by the
attempt and exactly one `failed` audit record (message `boom`) is
appended. -/
theorem c3_rollback_witness :
    (load auditParams "lid" failSecondOracle exampleHeaders
        (Source.dir ["a.csv", "b.csv"]) exampleState).1
      = Except.error (LoadErr.copyError "boom")
    ∧ ((load auditParams "lid" failSecondOracle exampleHeaders
        (Source.dir ["a.csv", "b.csv"]) exampleState).2).wh.committed
      = exampleState.wh.committed
    ∧ ((load auditParams "lid" failSecondOracle exampleHeaders
        (Source.dir ["a.csv", "b.csv"]) exampleState).2).wh.auditLog
      = exampleState.wh.auditLog
        ++ [failedAudit auditParams "lid" 2 "boom"] := by
  have h := c3_rollback_audit_reraise auditParams "lid" failSecondOracle
    exampleHeaders (Source.dir ["a.csv", "b.csv"]) exampleState "boom"
    (by decide) (by decide)
  have hlen : (iter_files (Source.dir ["a.csv", "b.csv"])).length = 2 := by
    decide
  refine ⟨h.1, h.2.1, ?_⟩
  have h3 := h.2.2.1 rfl
  rw [hlen] at h3
  exact h3

/-- C5, counterexample: a load whose source is a single regular file with
a dot-leading (hidden) name succeeds and reports `files = 1`, yet the
number of non-hidden files discovered under the source is 0 — the hidden
exclusion is not applied to a direct single-file source, so `files` does
not always equal the count of non-hidden files. -/
theorem c5_hidden_single_file_counterexample :
    (load exampleParams "lid" okOracle exampleHeaders
        (Source.file ".hidden.txt" []) exampleState).1
      = Except.ok (LoadResult.mk 3 1 (some 1) none none)
    ∧ (LoadResult.mk 3 1 (some 1) none none).files = 1
    ∧ countNonHidden (Source.file ".hidden.txt" []) = 0
    ∧ (LoadResult.mk 3 1 (some 1) none none).files
        ≠ countNonHidden (Source.file ".hidden.txt" []) := by
  decide

/-- C5 (amended): for every successful load, `rows` equals the sum over
the processed files of the per-file rows-loaded count reported by the
bulk-copy step, and `files` equals the number of files enumerated from
the source, where names starting with a dot are excluded when the source
is a directory or a zip archive (for those sources `files` equals the
count of non-hidden files discovered); a source that is itself a single
non-zip file is counted even if its name starts with a dot. -/
theorem c5_rows_files_amended (p : LoadParams) (lid : String)
    (oracle : CopyOracle) (headersOf : String → List String) (src : Source)
    (s : LoaderState) (rowsF : String → List Row) (repF : String → Nat)
    (hconn : connOk p s = true)
    (hfiles : (iter_files src).isEmpty = false)
    (hora : ∀ f ∈ iter_files src,
        load_file p (effectiveDetect p headersOf (iter_files src)).1
          (effectiveDetect p headersOf (iter_files src)).2 headersOf oracle f
        = Except.ok (rowsF f, repF f)) :
    (∃ r : LoadResult,
      (load p lid oracle headersOf src s).1 = Except.ok r
      ∧ r.rows = ((iter_files src).map repF).sum
      ∧ r.files = (iter_files src).length)
    ∧ (∀ entries, src = Source.dir entries →
        (iter_files src).length = countNonHidden src)
    ∧ (sourceIsZip src = true →
        (iter_files src).length = countNonHidden src) := by
  have hgc_ok : (get_conn p (zipAdjust src s)).1 = Except.ok () := by
    rw [get_conn_ok_iff, connOk_zipAdjust]
    exact hconn
  have hbody : loadBody p lid oracle headersOf src s
      = runTx p lid (effectiveDetect p headersOf (iter_files src)).1
          (effectiveDetect p headersOf (iter_files src)).2 headersOf oracle
          (iter_files src) ((get_conn p (zipAdjust src s)).2) := by
    simp only [loadBody, hfiles, Bool.false_eq_true, if_false]
    rw [hgc_ok]
  have hloop := copyLoop_ok_of_all
    (load_file p (effectiveDetect p headersOf (iter_files src)).1
      (effectiveDetect p headersOf (iter_files src)).2 headersOf oracle)
    rowsF repF (iter_files src)
    (txStart p ((get_conn p (zipAdjust src s)).2).wh.committed).2 hora
  refine ⟨?_, ?_, ?_⟩
  · refine ⟨buildResult p lid ((iter_files src).map repF).sum
      (iter_files src).length
      (txStart p ((get_conn p (zipAdjust src s)).2).wh.committed).1,
      ?_, rfl, rfl⟩
    show (loadBody p lid oracle headersOf src s).1 = _
    rw [hbody]
    simp only [runTx]
    rw [hloop]
  · intro entries he
    subst he
    show ((sortStrings entries).filter (fun n => ! strStartsWith n ".")).length
      = entries.countP (fun n => ! strStartsWith n ".")
    exact length_filter_sortStrings _ _
  · intro hz
    cases src with
    | dir entries => simp [sourceIsZip] at hz
    | file name entries =>
      have hzip : (strToLower (path_suffix name) == ".zip") = true := hz
      show (iter_files (Source.file name entries)).length
        = countNonHidden (Source.file name entries)
      simp only [iter_files, countNonHidden, allFilesUnder, hzip, if_true]
      exact length_filter_sortStrings _ _

/-- C5 witness: a directory with two visible files, each copy reporting
3 rows, yields a successful result with `rows = 6` and `files = 2`, and
for the directory source the enumerated count equals the non-hidden file
count. -/
theorem c5_rows_files_witness :
    (∃ r : LoadResult,
      (load exampleParams "lid" okOracle exampleHeaders
          (Source.dir ["a.csv", "b.csv", ".DS_Store"]) exampleState).1
        = Except.ok r
      ∧ r.rows = 6 ∧ r.files = 2)
    ∧ (iter_files (Source.dir ["a.csv", "b.csv", ".DS_Store"])).length
        = countNonHidden (Source.dir ["a.csv", "b.csv", ".DS_Store"]) := by
  have h := c5_rows_files_amended exampleParams "lid" okOracle
    exampleHeaders (Source.dir ["a.csv", "b.csv", ".DS_Store"]) exampleState
    exampleRowsF exampleRepF (by decide) (by decide)
    (fun f _ => rfl)
  obtain ⟨⟨r, h1, h2, h3⟩, hdir, _⟩ := h
  refine ⟨⟨r, h1, ?_, ?_⟩, hdir _ rfl⟩
  · rw [h2]; decide
  · rw [h3]; decide

/-- C7: with expand-columns requested, if the first enumerated file's
detected format is not csv/tsv or its header yields no column names,
expansion is disabled for the whole batch and the load proceeds exactly
as if expand-columns had not been requested (non-fatal); otherwise the
column names detected from the first file's header become the effective
columns, and every delimited file in the batch is copied in expanded mode
with those same columns, regardless of that file's own header. -/
theorem c7_expand_detection (p : LoadParams) (lid : String)
    (oracle : CopyOracle) (headersOf : String → List String) (src : Source)
    (s : LoaderState)
    (hexp : p.expand_columns = true) :
    ((detect_format p.file_format ((iter_files src).headD "") ≠ "csv"
        ∧ detect_format p.file_format ((iter_files src).headD "") ≠ "tsv")
      ∨ headersOf ((iter_files src).headD "") = [] →
      effectiveDetect p headersOf (iter_files src) = (false, [])
      ∧ load p lid oracle headersOf src s
          = load { p with expand_columns := false } lid oracle headersOf
              src s)
    ∧ ((detect_format p.file_format ((iter_files src).headD "") = "csv"
        ∨ detect_format p.file_format ((iter_files src).headD "") = "tsv") →
      headersOf ((iter_files src).headD "") ≠ [] →
      effectiveDetect p headersOf (iter_files src)
        = (true, headersOf ((iter_files src).headD ""))
      ∧ ∀ f h2, detect_format p.file_format f ≠ "single-column" →
          copyMode (effectiveDetect p headersOf (iter_files src)).1
            (effectiveDetect p headersOf (iter_files src)).2
            (detect_format p.file_format f) h2
          = CopyMode.expanded (headersOf ((iter_files src).headD ""))) := by
  constructor
  · intro hbad
    have hecL : effectiveDetect p headersOf (iter_files src) = (false, []) := by
      unfold effectiveDetect
      rw [hexp]
      rcases hbad with ⟨h1, h2⟩ | hh
      · have b1 : (detect_format p.file_format ((iter_files src).headD "")
            == "csv") = false := beq_eq_false_iff_ne.mpr h1
        have b2 : (detect_format p.file_format ((iter_files src).headD "")
            == "tsv") = false := beq_eq_false_iff_ne.mpr h2
        unfold detectColumns
        rw [b1, b2]
        rfl
      · rw [hh]
        unfold detectColumns
        split_ifs <;> rfl
    have hecR : effectiveDetect { p with expand_columns := false }
        headersOf (iter_files src) = (false, []) := rfl
    refine ⟨hecL, ?_⟩
    have hb : loadBody p lid oracle headersOf src s
        = loadBody { p with expand_columns := false } lid oracle headersOf
            src s := by
      simp only [loadBody]
      rw [hecL, hecR]
      rfl
    unfold load
    rw [hb]
  · intro hfmt hh
    have hbe : (headersOf ((iter_files src).headD "")).isEmpty = false := by
      simpa [List.isEmpty_iff] using hh
    have hec : effectiveDetect p headersOf (iter_files src)
        = (true, headersOf ((iter_files src).headD "")) := by
      unfold effectiveDetect
      rw [hexp]
      rcases hfmt with h | h
      · rw [h]
        have hstep : detectColumns true "csv"
            (headersOf ((iter_files src).headD ""))
          = (!(headersOf ((iter_files src).headD "")).isEmpty,
             headersOf ((iter_files src).headD "")) := rfl
        rw [hstep, hbe]
        rfl
      · rw [h]
        have hstep : detectColumns true "tsv"
            (headersOf ((iter_files src).headD ""))
          = (!(headersOf ((iter_files src).headD "")).isEmpty,
             headersOf ((iter_files src).headD "")) := rfl
        rw [hstep, hbe]
        rfl
    refine ⟨hec, ?_⟩
    intro f h2 hf
    have hsc : (detect_format p.file_format f == "single-column") = false :=
      beq_eq_false_iff_ne.mpr hf
    rw [hec]
    show copyMode true (headersOf ((iter_files src).headD ""))
      (detect_format p.file_format f) h2 = _
    unfold copyMode
    rw [hsc]
    rw [if_neg Bool.false_ne_true]
    have hb3 : (true && !(headersOf ((iter_files src).headD "")).isEmpty)
        = true := by rw [hbe]; rfl
    rw [if_pos hb3]

/-- C7 witness: a single `.txt` source file detects as single-column, so
a requested expansion is disabled and the load runs exactly as with
expansion off. -/
theorem c7_expand_detection_witness :
    effectiveDetect expandParams exampleHeaders
        (iter_files (Source.file "a.txt" [])) = (false, [])
    ∧ load expandParams "lid" okOracle exampleHeaders
        (Source.file "a.txt" []) exampleState
      = load { expandParams with expand_columns := false } "lid" okOracle
          exampleHeaders (Source.file "a.txt" []) exampleState :=
  (c7_expand_detection expandParams "lid" okOracle exampleHeaders
    (Source.file "a.txt" []) exampleState rfl).1
    (Or.inl ⟨by decide, by decide⟩)

end Dcx
